import Mathlib

/-!
Verification of the Task Interchange Engine (task_import.py / task_export.py).

The Python source is shallowly embedded: text is modelled as `List Char`
(one entry per character), files as lists of lines, Python's dynamic
values as the inductive `Value`, and I/O outcomes as explicit parameters.
Each definition translates one Python function or a stdlib primitive it
calls; doc comments name the source location.
-/

namespace TaskEngine

/-- Result of running a Python function: either a returned value or an
uncaught exception (named by its Python class). -/
inductive PyRes (α : Type) where
  | ok : α → PyRes α
  | exn : String → PyRes α
deriving DecidableEq, Repr

/-- Python `str.strip()` with no argument: drop whitespace from both ends. -/
def pyStrip (s : List Char) : List Char :=
  ((s.dropWhile Char.isWhitespace).reverse.dropWhile Char.isWhitespace).reverse

/-- Python `str.lower()` (ASCII-relevant part of the embedding). -/
def pyLower (s : List Char) : List Char :=
  s.map Char.toLower

/-- `str.lower()` on the packed string type. -/
def pyLowerS (s : String) : String :=
  String.mk (pyLower s.data)

/-- Python substring test `needle in hay` for non-empty needles
(`'' in s` is `True`, matching `needle.isEmpty` on the nil case). -/
def containsSub (needle : List Char) : List Char → Bool
  | [] => needle.isEmpty
  | c :: cs => needle.isPrefixOf (c :: cs) || containsSub needle cs

/-- Characters of `s` before the first occurrence of the non-empty
pattern `d`; all of `s` when `d` does not occur.  This is Python
`s.split(d)[0]` for a non-empty separator. -/
def takeBefore (d : List Char) : List Char → List Char
  | [] => []
  | c :: cs => if d.isPrefixOf (c :: cs) then [] else c :: takeBefore d cs

/-- Fuel-indexed body of Python `str.replace(old, new)`: replaces
non-overlapping occurrences left to right.  Fuel bounds the recursion;
`pyReplace` supplies fuel `s.length`, always enough. -/
def pyReplaceFuel : Nat → List Char → List Char → List Char → List Char
  | 0, s, _, _ => s
  | _ + 1, [], _, _ => []
  | n + 1, c :: cs, old, new =>
    if old.isPrefixOf (c :: cs) ∧ old ≠ [] then
      new ++ pyReplaceFuel n (List.drop (old.length - 1) cs) old new
    else
      c :: pyReplaceFuel n cs old new

/-- Python `s.replace(old, new)` for non-empty `old`. -/
def pyReplace (s old new : List Char) : List Char :=
  pyReplaceFuel s.length s old new

/-- One decoded checklist/text task record, as built by the decoders in
task_import.py (`created_at` is stamped with the decode-time clock, a
parameter `now` of the embedding). -/
structure MdTask where
  id : Nat
  task : List Char
  priority : String
  completed : Bool
  created_at : String
deriving DecidableEq, Repr

/-- task_import.py lines 163-171: emphasis-marker stripping of a checklist
item text — `task_text.replace('**','').replace('*','').replace('__','').replace('_','')`. -/
def stripEmph (t : List Char) : List Char :=
  pyReplace (pyReplace (pyReplace (pyReplace t ['*', '*'] []) ['*'] []) ['_', '_'] []) ['_'] []

/-- task_import.py lines 166-171: the delimiter-truncation step of the
checklist decoder.  Guarded by `'(' in task_text or '[' in task_text`;
tries the delimiters `' ('`, `' ['`, `' _'` in that fixed order and
splits at the first occurrence of the first one present. -/
def truncateDesc (t : List Char) : List Char :=
  if t.contains '(' || t.contains '[' then
    if containsSub [' ', '('] t then pyStrip (takeBefore [' ', '('] t)
    else if containsSub [' ', '['] t then pyStrip (takeBefore [' ', '['] t)
    else if containsSub [' ', '_'] t then pyStrip (takeBefore [' ', '_'] t)
    else t
  else t

/-- task_import.py lines 144-182: the loop body of `import_from_markdown`,
threading (current id, current priority, accumulated tasks) through the
lines.  A line of exactly `- [` (length 3) makes `line[3]` raise
IndexError, which no handler in the source catches. -/
def mdGo (now : String) : List (List Char) → Nat → String → List MdTask →
    PyRes (List MdTask)
  | [], _, _, acc => .ok acc
  | l :: ls, tid, prio, acc =>
    let line := pyStrip l
    if ['#', '#'].isPrefixOf line then
      let header := pyLower (pyStrip (line.dropWhile (· = '#')))
      let prio' :=
        if containsSub ['h', 'i', 'g', 'h'] header then "high"
        else if containsSub ['l', 'o', 'w'] header then "low"
        else if containsSub ['m', 'e', 'd', 'i', 'u', 'm'] header then "medium"
        else prio
      mdGo now ls tid prio' acc
    else if ['-', ' ', '['].isPrefixOf line then
      match line.get? 3 with
      | none => .exn "IndexError"
      | some c =>
        let completed := c = 'x' || c = 'X'
        let t0 := pyStrip (line.drop 6)
        let t1 := stripEmph t0
        let t2 := truncateDesc t1
        if t2 = [] then mdGo now ls tid prio acc
        else mdGo now ls (tid + 1) prio (acc ++ [⟨tid, t2, prio, completed, now⟩])
    else
      mdGo now ls tid prio acc

/-- task_import.py lines 125-186: `import_from_markdown`, on the list of
lines of the file (file I/O failure, caught in the source, is outside the
text-level embedding).  Returns `none` when no task was produced
(`return tasks if tasks else None`). -/
def import_from_markdown (now : String) (lines : List (List Char)) :
    PyRes (Option (List MdTask)) :=
  match mdGo now lines 1 "medium" [] with
  | .ok tasks => .ok (if tasks = [] then none else some tasks)
  | .exn e => .exn e

/-- task_import.py lines 89-118: the loop body of `import_from_text`.
Blank lines and lines starting with `#` are skipped; a leading
`[...]` bracket carries an optional priority tag; a leading completion
marker flips `completed`; the rest (even when empty) is the description. -/
def txtGo (now : String) : List (List Char) → Nat → List MdTask → List MdTask
  | [], _, acc => acc
  | l :: ls, tid, acc =>
    let line := pyStrip l
    if line = [] || ['#'].isPrefixOf line then
      txtGo now ls tid acc
    else
      let (priority, line1) :=
        if ['['].isPrefixOf line then
          match line.findIdx? (· = ']') with
          | some endBracket =>
            let priority_str := pyLower (pyStrip ((line.take endBracket).drop 1))
            let p :=
              if priority_str = "low".data then "low"
              else if priority_str = "medium".data then "medium"
              else if priority_str = "high".data then "high"
              else "medium"
            (p, pyStrip (line.drop (endBracket + 1)))
          | none => ("medium", line)
        else ("medium", line)
      let (completed, line2) :=
        if ['x', ' '].isPrefixOf line1 || ['X', ' '].isPrefixOf line1 ||
            ['✓', ' '].isPrefixOf line1 || ['[', 'x', ']'].isPrefixOf line1 ||
            ['[', 'X', ']'].isPrefixOf line1 then
          (true, pyStrip (line1.dropWhile (fun c => c ∈ ['x', 'X', '✓', ' ', '[', ']'])))
        else (false, line1)
      txtGo now ls (tid + 1) (acc ++ [⟨tid, line2, priority, completed, now⟩])

/-- task_import.py lines 71-122: `import_from_text` on the list of lines;
returns `none` when no record was produced. -/
def import_from_text (now : String) (lines : List (List Char)) :
    Option (List MdTask) :=
  let tasks := txtGo now lines 1 []
  if tasks = [] then none else some tasks

/-- A Python value as the engine manipulates it: None, bool, int, str,
list, dict (string keys, insertion-ordered). -/
inductive Value where
  | pyNone : Value
  | pyBool : Bool → Value
  | pyInt : Int → Value
  | pyStr : String → Value
  | pyList : List Value → Value
  | pyDict : List (String × Value) → Value

/-- Python truthiness (`bool(v)`) on the embedded values. -/
def truthy : Value → Bool
  | .pyNone => false
  | .pyBool b => b
  | .pyInt n => n != 0
  | .pyStr s => s ≠ ""
  | .pyList xs => !xs.isEmpty
  | .pyDict kvs => !kvs.isEmpty

/-- Python `d[k] = v` on an insertion-ordered dict: replaces the value in
place when the key exists, otherwise appends the binding at the end. -/
def dictSet : List (String × Value) → String → Value → List (String × Value)
  | [], k, v => [(k, v)]
  | (k', v') :: rest, k, v =>
    if k' = k then (k', v) :: rest else (k', v') :: dictSet rest k v

/-- `isinstance(v, bool)`. -/
def isBoolV : Value → Bool
  | .pyBool _ => true
  | _ => false

/-- `isinstance(v, int)`; in Python `bool` is a subclass of `int`, so
booleans count as ints here. -/
def isIntV : Value → Bool
  | .pyInt _ => true
  | .pyBool _ => true
  | _ => false

/-- `str(v)` as used in the validator's priority warning; container
rendering is abbreviated, the scalar cases follow Python. -/
def strV : Value → String
  | .pyNone => "None"
  | .pyBool b => if b then "True" else "False"
  | .pyInt n => toString n
  | .pyStr s => s
  | .pyList _ => "[...]"
  | .pyDict _ => "\x7b...\x7d"

/-- task_import.py line 283: `priority not in ['low', 'medium', 'high']`,
negated — equality of a Python value with one of the three strings. -/
def isValidPrio : Value → Bool
  | .pyStr s => s = "low" || s = "medium" || s = "high"
  | _ => false

/-- `datetime.fromisoformat(v)` succeeding: TypeError on non-strings,
and on strings acceptance is the parameter `isoOk`, the embedding's
model of the stdlib date grammar. -/
def isoOkV (isoOk : String → Bool) : Value → Bool
  | .pyStr s => isoOk s
  | _ => false

/-- task_import.py lines 271-305: one iteration of the validator loop at
1-based position `i`, returning the kept (possibly repaired) record or
`none`, together with the warnings this record contributed. -/
def validateStep (isoOk : String → Bool) (now : String) (i : Nat) (v : Value) :
    Option Value × List String :=
  match v with
  | .pyDict kvs =>
    match kvs.lookup "task" with
    | none => (none, ["Task " ++ toString i ++ ": Missing or empty 'task' field"])
    | some tv =>
      if truthy tv = false then
        (none, ["Task " ++ toString i ++ ": Missing or empty 'task' field"])
      else
        let p := (kvs.lookup "priority").getD (.pyStr "medium")
        let (kvs1, w1) :=
          if isValidPrio p then (kvs, ([] : List String))
          else (dictSet kvs "priority" (.pyStr "medium"),
            ["Task " ++ toString i ++ ": Invalid priority '" ++ strV p ++ "', using 'medium'"])
        let c := (kvs1.lookup "completed").getD (.pyBool false)
        let kvs2 := if isBoolV c then kvs1 else dictSet kvs1 "completed" (.pyBool false)
        let kvs3 :=
          match kvs2.lookup "id" with
          | none => dictSet kvs2 "id" (.pyInt i)
          | some idv => if isIntV idv then kvs2 else dictSet kvs2 "id" (.pyInt i)
        match kvs3.lookup "created_at" with
        | none => (some (.pyDict (dictSet kvs3 "created_at" (.pyStr now))), w1)
        | some ca =>
          if isoOkV isoOk ca then (some (.pyDict kvs3), w1)
          else (some (.pyDict (dictSet kvs3 "created_at" (.pyStr now))),
            w1 ++ ["Task " ++ toString i ++ ": Invalid date format, using current time"])
  | _ => (none, ["Task " ++ toString i ++ ": Not a valid dictionary"])

/-- task_import.py lines 268-307: the validator loop, accumulating kept
records and warnings from position `i` on. -/
def validateGo (isoOk : String → Bool) (now : String) :
    Nat → List Value → List Value × List String
  | _, [] => ([], [])
  | i, v :: vs =>
    let (r, w) := validateStep isoOk now i v
    let (rs, ws) := validateGo isoOk now (i + 1) vs
    (match r with | some t => t :: rs | none => rs, w ++ ws)

/-- task_import.py lines 258-307: `validate_imported_tasks`; positions are
1-based (`enumerate(tasks, 1)`). -/
def validate_imported_tasks (isoOk : String → Bool) (now : String)
    (tasks : List Value) : List Value × List String :=
  validateGo isoOk now 1 tasks

/-- 1-based enumeration, `enumerate(tasks, i)`. -/
def enumFrom : Nat → List α → List (Nat × α)
  | _, [] => []
  | i, a :: as => (i, a) :: enumFrom (i + 1) as

/-- One row as `csv.DictReader` yields it: header-keyed cells; a cell is
`none` when the physical row was shorter than the header (the reader's
`restval`, Python `None`). -/
def CsvRow : Type := List (String × Option String)

/-- Python `row.get(k, dflt)` on a DictReader row: the stored cell (which
may be `None`) when the key is present, the default otherwise. -/
def rowGet (row : CsvRow) (k : String) (dflt : Option String) : Option String :=
  match List.lookup k row with
  | some cell => cell
  | none => dflt

/-- Python `str.isdigit()` on the ASCII-digit fragment the embedding
models. -/
def pyIsDigit (s : String) : Bool :=
  s ≠ "" && s.data.all Char.isDigit

/-- `int(s)` for an all-digit string. -/
def digitsToInt (s : String) : Int :=
  Int.ofNat (s.data.foldl (fun n c => n * 10 + (c.toNat - '0'.toNat)) 0)

/-- task_import.py lines 57-63: the per-row record built by
`import_from_csv`.  Calling `.isdigit()` or `.lower()` on a `None` cell
raises AttributeError, which the source's handler
(`IOError, OSError, csv.Error`) does not catch. -/
def csvRowTask (now : String) (row : CsvRow) : PyRes Value :=
  match rowGet row "id" (some "") with
  | none => .exn "AttributeError"
  | some idCond =>
    let idVal : Int :=
      if pyIsDigit idCond then
        match rowGet row "id" (some "") with
        | some s => digitsToInt s
        | none => 0
      else 0
    match rowGet row "completed" (some "False") with
    | none => .exn "AttributeError"
    | some comp =>
      let completed := (pyLowerS comp) = "true" || (pyLowerS comp) = "1" || (pyLowerS comp) = "yes"
      let cell : Option String → Value := fun c =>
        match c with
        | some s => .pyStr s
        | none => .pyNone
      .ok (.pyDict
        [("id", .pyInt idVal),
         ("task", cell (rowGet row "task" (some ""))),
         ("priority", cell (rowGet row "priority" (some "medium"))),
         ("completed", .pyBool completed),
         ("created_at", cell (rowGet row "created_at" (some now)))])

/-- task_import.py lines 52-66: the row loop of `import_from_csv`. -/
def csvGo (now : String) : List CsvRow → List Value → PyRes (List Value)
  | [], acc => .ok acc
  | r :: rs, acc =>
    match csvRowTask now r with
    | .ok t => csvGo now rs (acc ++ [t])
    | .exn e => .exn e

/-- task_import.py lines 41-68: `import_from_csv` on the DictReader rows
(a header-only file yields zero rows); `return tasks if tasks else None`. -/
def import_from_csv (now : String) (rows : List CsvRow) :
    PyRes (Option (List Value)) :=
  match csvGo now rows [] with
  | .ok tasks => .ok (if tasks.isEmpty then none else some tasks)
  | .exn e => .exn e

/-- One task of an in-memory collection, per the data model: the five
canonical fields, with `priority` optional so that a record lacking the
key can be expressed (`t.get('priority')` is then Python `None`). -/
structure Task where
  id : Int
  task : String
  priority : Option String
  completed : Bool
  created_at : String
deriving DecidableEq, Repr

/-- task_import.py lines 246-250: the `skip_duplicates` loop, threading
the merged list and the set of lower-cased descriptions seen so far. -/
def skipGo : List Task → List Task → List String → List Task
  | [], merged, _ => merged
  | t :: ts, merged, seen =>
    let d := pyLowerS t.task
    if d ∈ seen then skipGo ts merged seen
    else skipGo ts (merged ++ [t]) (d :: seen)

/-- task_import.py lines 226-255: `merge_tasks`. -/
def merge_tasks (existing_tasks imported_tasks : List Task)
    (strategy : String) : List Task :=
  if strategy = "replace" then imported_tasks
  else if strategy = "skip_duplicates" then
    skipGo imported_tasks existing_tasks
      (existing_tasks.map fun t => pyLowerS t.task)
  else existing_tasks ++ imported_tasks

/-- The family of engine operations a resolved format dispatches to,
named by the specification's format vocabulary (`unknown` is the
fall-through that returns `None`/`False`). -/
inductive FormatTag where
  | record | table | checklist | document | text | unknown
deriving DecidableEq, Repr

/-- task_import.py lines 204-209: the import extension table. -/
def import_format_map : List (String × String) :=
  [(".json", "json"), (".csv", "csv"), (".md", "md"), (".txt", "txt")]

/-- task_import.py lines 189-223: the format resolution and dispatch of
`import_by_format`; `ext` stands for `Path(filepath).suffix.lower()`. -/
def import_dispatch (format : Option String) (ext : String) : FormatTag :=
  let f0 :=
    match format with
    | none => (List.lookup ext import_format_map).getD "json"
    | some f => f
  let f := pyLowerS f0
  if f = "json" then .record
  else if f = "csv" then .table
  else if f = "md" || f = "markdown" then .checklist
  else if f = "txt" || f = "text" then .text
  else .unknown

/-- task_export.py lines 276-283: the export extension table. -/
def export_format_map : List (String × String) :=
  [(".json", "json"), (".csv", "csv"), (".md", "md"),
   (".html", "html"), (".htm", "html"), (".txt", "txt")]

/-- task_export.py lines 260-299: the format resolution and dispatch of
`export_by_format`; `ext` stands for `Path(filepath).suffix.lower()`. -/
def export_dispatch (format : Option String) (ext : String) : FormatTag :=
  let f0 :=
    match format with
    | none => (List.lookup ext export_format_map).getD "json"
    | some f => f
  let f := pyLowerS f0
  if f = "json" then .record
  else if f = "csv" then .table
  else if f = "md" || f = "markdown" then .checklist
  else if f = "html" || f = "htm" then .document
  else if f = "txt" || f = "text" then .text
  else .unknown

/-- A collection task as the Python dict it is in memory: the
`priority` binding is present exactly when the field is. -/
def taskToValue (t : Task) : Value :=
  .pyDict
    ([("id", .pyInt t.id), ("task", .pyStr t.task)] ++
      (match t.priority with
       | some p => [("priority", .pyStr p)]
       | none => []) ++
      [("completed", .pyBool t.completed), ("created_at", .pyStr t.created_at)])

/-- task_export.py lines 13-40: the value `export_to_json` serializes
(`export_date` is the encode-time clock; the pretty flag has no semantic
effect).  JSON serialization of these values is faithful, so the decoder
is composed with this value directly. -/
def export_to_json (tasks : List Task) (export_date : String) : Value :=
  .pyDict
    [("export_date", .pyStr export_date),
     ("total_tasks", .pyInt tasks.length),
     ("tasks", .pyList (tasks.map taskToValue))]

/-- task_import.py lines 13-38: `import_from_json` on the parsed
top-level value: a list is returned as is; a dict is probed for a
`tasks` then a `task_list` key; anything else fails. -/
def import_from_json (data : Value) : Option Value :=
  match data with
  | .pyList xs => some (.pyList xs)
  | .pyDict kvs =>
    match List.lookup "tasks" kvs with
    | some v => some v
    | none =>
      match List.lookup "task_list" kvs with
      | some v => some v
      | none => none
  | _ => none

/-- The (description, priority, completed) triple of a decoded record,
read back through dict lookups; `none` when the record does not carry
the fields with those shapes. -/
def recTriple (v : Value) : Option (String × Option String × Bool) :=
  match v with
  | .pyDict kvs =>
    match List.lookup "task" kvs, List.lookup "completed" kvs with
    | some (.pyStr s), some (.pyBool b) =>
      some (s,
        (match List.lookup "priority" kvs with
         | some (.pyStr p) => some p
         | _ => none), b)
    | _, _ => none
  | _ => none

/-- Python `str.capitalize()`: first character upper-cased, the rest
lower-cased. -/
def pyCapitalize (s : String) : String :=
  match s.data with
  | [] => ""
  | c :: cs => String.mk (c.toUpper :: cs.map Char.toLower)

/-- task_export.py lines 96-102: the creation-date rendering of the
checklist encoder — `fromisoformat` then `strftime('%Y-%m-%d')`, or
`N/A` on parse failure.  `isoOk`/`fmtDate` model the stdlib calls. -/
def mdDateStr (isoOk : String → Bool) (fmtDate : String → String)
    (created : String) : String :=
  if isoOk created then fmtDate created else "N/A"

/-- task_export.py line 104: one checklist item line. -/
def mdItemLine (isoOk : String → Bool) (fmtDate : String → String)
    (t : Task) : String :=
  "- " ++ (if t.completed then "[x]" else "[ ]") ++ " **" ++ t.task ++ "** _" ++
    mdDateStr isoOk fmtDate t.created_at ++ "_\n"

/-- task_export.py lines 90-106: one priority bucket of the checklist
encoder — filter on exact priority match, and emit nothing at all when
the bucket is empty. -/
def mdSection (isoOk : String → Bool) (fmtDate : String → String)
    (tasks : List Task) (p : String) : List String :=
  let pts := tasks.filter fun t => t.priority = some p
  if pts = [] then []
  else ("## " ++ pyCapitalize p ++ " Priority\n\n") ::
    (pts.map (mdItemLine isoOk fmtDate) ++ ["\n"])

/-- task_export.py lines 73-110: `export_to_markdown` as the list of
strings written, in order (`now` is the encode-time header clock). -/
def export_to_markdown (isoOk : String → Bool) (fmtDate : String → String)
    (now : String) (tasks : List Task) : List String :=
  ["# Todo List\n\n", "*Exported: " ++ now ++ "*\n\n"] ++
    (["high", "medium", "low"].flatMap fun p => mdSection isoOk fmtDate tasks p)

/-- An output line that renders a task (a checklist item). -/
def isItemLine (s : String) : Bool :=
  ['-', ' ', '['].isPrefixOf s.data

/-- task_export.py lines 313-316: the backup directory — the argument,
or `~/.todo_backups` when absent (`home` models `Path.home()`). -/
def backupDirResolved (home : String) (backup_dir : Option String) : String :=
  match backup_dir with
  | none => home ++ "/.todo_backups"
  | some d => d

/-- task_export.py line 322: the backup file name,
`f"todo_backup_...timestamp....json"` with `ts` the
`strftime('%Y%m%d_%H%M%S')` clock rendering. -/
def backupFilename (ts : String) : String :=
  "todo_backup_" ++ ts ++ ".json"

/-- task_export.py lines 302-328: `create_backup` — on I/O success
(directory creation and write, modelled by `ioOk`) the path written and
the record-encoded payload; `none` otherwise. -/
def create_backup (home ts export_date : String) (tasks : List Task)
    (backup_dir : Option String) (ioOk : Bool) : Option (String × Value) :=
  if ioOk then
    some (backupDirResolved home backup_dir ++ "/" ++ backupFilename ts,
      export_to_json tasks export_date)
  else none

/-! Spec-side definitions: written from the claims' words, to be compared
with the source-side definitions above. -/

/-- A position in `s` at which a space-delimiter (a space followed by
`(`, `[`, or `_`) starts. -/
def spaceDelimAt (s : List Char) : Bool :=
  [' ', '('].isPrefixOf s || [' ', '['].isPrefixOf s || [' ', '_'].isPrefixOf s

/-- The characters of `s` before the earliest space-delimiter
occurrence (all of `s` when there is none). -/
def takeBeforeEarliest : List Char → List Char
  | [] => []
  | c :: cs => if spaceDelimAt (c :: cs) then [] else c :: takeBeforeEarliest cs

/-- Whether some space-delimiter occurs in `s`. -/
def hasSpaceDelim : List Char → Bool
  | [] => false
  | c :: cs => spaceDelimAt (c :: cs) || hasSpaceDelim cs

/-- Claim C5's truncation rule, from the claim's words: when the text
contains a space followed by `(`, `[`, or `_`, truncate at the first
(earliest-position) such occurrence, then trim. -/
def claimTruncate (t : List Char) : List Char :=
  if hasSpaceDelim t then pyStrip (takeBeforeEarliest t) else t

/-- Claim C6's extension table, from the claim's words, for both entry
points: `.json`→record, `.csv`→table, `.md`/`.markdown`→checklist,
`.htm`/`.html`→document, `.txt`/`.text`→text, anything else→record. -/
def claimExtFormat (ext : String) : FormatTag :=
  if ext = ".json" then .record
  else if ext = ".csv" then .table
  else if ext = ".md" || ext = ".markdown" then .checklist
  else if ext = ".htm" || ext = ".html" then .document
  else if ext = ".txt" || ext = ".text" then .text
  else .record

/-- Claim C7's backup file name, from the claim's words:
`task_backup_` followed by the timestamp and an extension. -/
def claimBackupFilename (ts : String) : String :=
  "task_backup_" ++ ts ++ ".json"

/-! Theorems. -/

/-- Concrete tasks used by witnesses. -/
def sampleTaskA : Task := ⟨1, "Alpha", some "high", false, "2024-01-01T00:00:00"⟩

/-- A second concrete task used by witnesses. -/
def sampleTaskB : Task := ⟨2, "Beta", some "low", true, "2024-01-02T00:00:00"⟩

/-- C1: the claim that every engine operation returns a value and never
propagates an exception fails on the code: the checklist decoder's item
branch indexes `line[3]` on any line starting with `- [`, so the input
text consisting of the single line `- [` (three characters) raises
IndexError, which the decoder's handler (IOError/OSError only) does not
catch; and the table decoder's `row.get('completed','False').lower()`
raises AttributeError on a row whose `completed` cell is missing (the
DictReader fills it with None), uncaught by its
IOError/OSError/csv.Error handler. -/
theorem decoder_exceptions_escape :
    import_from_markdown "NOW" [['-', ' ', '[']] = .exn "IndexError"
  ∧ import_from_csv "NOW"
      [[("id", some "1"), ("task", some "t"), ("completed", none)]]
      = .exn "AttributeError" :=
  ⟨rfl, rfl⟩

/-- C10: for every strategy string other than `replace` and
`skip_duplicates`, `merge_tasks` falls through to the append branch and
returns existing concatenated with incoming. -/
theorem merge_tasks_unknown_strategy_appends (existing imported : List Task)
    (s : String) (h1 : s ≠ "replace") (h2 : s ≠ "skip_duplicates") :
    merge_tasks existing imported s = existing ++ imported := by
  simp [merge_tasks, h1, h2]

/-- Witness for C10 at the concrete strategy `mystery`. -/
theorem merge_tasks_unknown_strategy_appends_witness :
    merge_tasks [sampleTaskA] [sampleTaskB] "mystery" =
      [sampleTaskA] ++ [sampleTaskB] :=
  merge_tasks_unknown_strategy_appends [sampleTaskA] [sampleTaskB] "mystery"
    (by decide) (by decide)

/-- The text decoder's loop leaves the accumulator unchanged when every
line is blank or a comment. -/
theorem txtGo_skip_all (now : String) : ∀ lines : List (List Char),
    (∀ l ∈ lines, pyStrip l = [] ∨ ['#'].isPrefixOf (pyStrip l) = true) →
    ∀ tid acc, txtGo now lines tid acc = acc := by
  intro lines
  induction lines with
  | nil => intro _ tid acc; rfl
  | cons l ls ih =>
    intro h tid acc
    have hrest : ∀ l' ∈ ls, pyStrip l' = [] ∨ ['#'].isPrefixOf (pyStrip l') = true :=
      fun l' hm => h l' (List.mem_cons_of_mem _ hm)
    rcases h l (List.mem_cons_self _ _) with h1 | h1
    · rw [show txtGo now (l :: ls) tid acc = txtGo now ls tid acc by
        simp [txtGo, h1]]
      exact ih hrest tid acc
    · rw [show txtGo now (l :: ls) tid acc = txtGo now ls tid acc by
        simp [txtGo, h1]]
      exact ih hrest tid acc

/-- The checklist decoder's loop leaves the accumulator unchanged when
every line is blank or starts with `#` (headers only move the carried
priority; other `#` lines match no branch). -/
theorem mdGo_skip_all (now : String) : ∀ lines : List (List Char),
    (∀ l ∈ lines, pyStrip l = [] ∨ ['#'].isPrefixOf (pyStrip l) = true) →
    ∀ tid prio acc, mdGo now lines tid prio acc = .ok acc := by
  intro lines
  induction lines with
  | nil => intro _ tid prio acc; rfl
  | cons l ls ih =>
    intro h tid prio acc
    have hrest : ∀ l' ∈ ls, pyStrip l' = [] ∨ ['#'].isPrefixOf (pyStrip l') = true :=
      fun l' hm => h l' (List.mem_cons_of_mem _ hm)
    rcases h l (List.mem_cons_self _ _) with h1 | h1
    · rw [show mdGo now (l :: ls) tid prio acc = mdGo now ls tid prio acc by
        simp [mdGo, h1, List.isPrefixOf]]
      exact ih hrest tid prio acc
    · obtain ⟨rest, hrestEq⟩ : ∃ rest, pyStrip l = '#' :: rest := by
        cases hl : pyStrip l with
        | nil => rw [hl] at h1; simp [List.isPrefixOf] at h1
        | cons c cs =>
          rw [hl] at h1
          simp [List.isPrefixOf] at h1
          exact ⟨cs, by rw [h1]⟩
      by_cases hb : ['#', '#'].isPrefixOf (pyStrip l) = true
      · rw [show mdGo now (l :: ls) tid prio acc =
            mdGo now ls tid
              (if containsSub ['h', 'i', 'g', 'h']
                  (pyLower (pyStrip ((pyStrip l).dropWhile (· = '#')))) then "high"
               else if containsSub ['l', 'o', 'w']
                  (pyLower (pyStrip ((pyStrip l).dropWhile (· = '#')))) then "low"
               else if containsSub ['m', 'e', 'd', 'i', 'u', 'm']
                  (pyLower (pyStrip ((pyStrip l).dropWhile (· = '#')))) then "medium"
               else prio) acc by
          simp [mdGo, hb]]
        exact ih hrest tid _ acc
      · rw [hrestEq] at hb
        have hb' : ['#'].isPrefixOf rest = false := by
          cases hx : ['#'].isPrefixOf rest
          · rfl
          · exact absurd (by simp [List.isPrefixOf, hx]) hb
        rw [show mdGo now (l :: ls) tid prio acc = mdGo now ls tid prio acc by
          simp [mdGo, hrestEq, List.isPrefixOf, hb']]
        exact ih hrest tid prio acc

/-- C9: on input text with no task-producing line (every line blank or a
`#`-line), the text decoder and the checklist decoder return the failure
signal `none` rather than an empty record list, and the table decoder
does the same on a header-only input (zero data rows). -/
theorem decoders_none_on_empty_yield :
    (∀ now lines, (∀ l ∈ lines, pyStrip l = [] ∨ ['#'].isPrefixOf (pyStrip l) = true) →
       import_from_text now lines = none)
  ∧ (∀ now lines, (∀ l ∈ lines, pyStrip l = [] ∨ ['#'].isPrefixOf (pyStrip l) = true) →
       import_from_markdown now lines = .ok none)
  ∧ (∀ now, import_from_csv now [] = .ok none) := by
  refine ⟨?_, ?_, fun now => rfl⟩
  · intro now lines h
    unfold import_from_text
    rw [txtGo_skip_all now lines h 1 []]
    rfl
  · intro now lines h
    unfold import_from_markdown
    rw [mdGo_skip_all now lines h 1 "medium" []]
    rfl

/-- Witness for C9 on a concrete two-line input (a blank line and a
comment line). -/
theorem decoders_none_on_empty_yield_witness :
    import_from_text "NOW" [[], ['#', ' ', 'c']] = none
  ∧ import_from_markdown "NOW" [[], ['#', ' ', 'c']] = .ok none :=
  ⟨decoders_none_on_empty_yield.1 "NOW" [[], ['#', ' ', 'c']] (by decide),
   decoders_none_on_empty_yield.2.1 "NOW" [[], ['#', ' ', 'c']] (by decide)⟩

/-- C6 counterexample: the claimed table sends `.markdown` to checklist,
but neither entry point's extension map contains `.markdown`, so both
default to record. -/
theorem format_resolver_markdown_ext_counterexample :
    import_dispatch none ".markdown" = .record
  ∧ export_dispatch none ".markdown" = .record
  ∧ claimExtFormat ".markdown" = .checklist
  ∧ FormatTag.record ≠ FormatTag.checklist :=
  ⟨rfl, rfl, rfl, by decide⟩

/-- C6 amended: decode resolves `.json`→record, `.csv`→table,
`.md`→checklist, `.txt`→text and everything else (including `.markdown`,
`.htm`, `.html`, `.text`) to record; encode resolves `.json`→record,
`.csv`→table, `.md`→checklist, `.html`/`.htm`→document, `.txt`→text and
everything else to record. -/
theorem format_resolver_tables :
    (import_dispatch none ".json" = .record ∧ import_dispatch none ".csv" = .table ∧
     import_dispatch none ".md" = .checklist ∧ import_dispatch none ".txt" = .text)
  ∧ (∀ ext, ext ≠ ".json" → ext ≠ ".csv" → ext ≠ ".md" → ext ≠ ".txt" →
       import_dispatch none ext = .record)
  ∧ (export_dispatch none ".json" = .record ∧ export_dispatch none ".csv" = .table ∧
     export_dispatch none ".md" = .checklist ∧ export_dispatch none ".html" = .document ∧
     export_dispatch none ".htm" = .document ∧ export_dispatch none ".txt" = .text)
  ∧ (∀ ext, ext ≠ ".json" → ext ≠ ".csv" → ext ≠ ".md" → ext ≠ ".html" →
       ext ≠ ".htm" → ext ≠ ".txt" → export_dispatch none ext = .record) := by
  refine ⟨⟨rfl, rfl, rfl, rfl⟩, ?_, ⟨rfl, rfl, rfl, rfl, rfl, rfl⟩, ?_⟩
  · intro ext h1 h2 h3 h4
    have e1 : (ext == ".json") = false := beq_false_of_ne h1
    have e2 : (ext == ".csv") = false := beq_false_of_ne h2
    have e3 : (ext == ".md") = false := beq_false_of_ne h3
    have e4 : (ext == ".txt") = false := beq_false_of_ne h4
    have hl : List.lookup ext import_format_map = none := by
      simp [import_format_map, List.lookup, e1, e2, e3, e4]
    simp only [import_dispatch, hl]
    rfl
  · intro ext h1 h2 h3 h4 h5 h6
    have e1 : (ext == ".json") = false := beq_false_of_ne h1
    have e2 : (ext == ".csv") = false := beq_false_of_ne h2
    have e3 : (ext == ".md") = false := beq_false_of_ne h3
    have e4 : (ext == ".html") = false := beq_false_of_ne h4
    have e5 : (ext == ".htm") = false := beq_false_of_ne h5
    have e6 : (ext == ".txt") = false := beq_false_of_ne h6
    have hl : List.lookup ext export_format_map = none := by
      simp [export_format_map, List.lookup, e1, e2, e3, e4, e5, e6]
    simp only [export_dispatch, hl]
    rfl

/-- Witness for C6 amended at the concrete unknown extension `.xyz`. -/
theorem format_resolver_tables_witness :
    import_dispatch none ".xyz" = .record ∧ export_dispatch none ".xyz" = .record :=
  ⟨format_resolver_tables.2.1 ".xyz" (by decide) (by decide) (by decide) (by decide),
   format_resolver_tables.2.2.2 ".xyz" (by decide) (by decide) (by decide)
     (by decide) (by decide) (by decide)⟩

/-- C7 counterexample: the backup file name the code builds starts with
`todo_backup_`, not the claimed `task_backup_`. -/
theorem create_backup_prefix_counterexample :
    create_backup "/home/u" "20240101_120000" "DATE" [] (some "bdir") true =
      some ("bdir/todo_backup_20240101_120000.json", export_to_json [] "DATE")
  ∧ backupFilename "20240101_120000" ≠ claimBackupFilename "20240101_120000" :=
  ⟨rfl, by decide⟩

/-- C7 amended: on I/O success `create_backup` writes the record-encoded
collection to `todo_backup_<timestamp>.json` (timestamp format
`YYYYMMDD_HHMMSS` via strftime) under the caller-supplied directory, or
`~/.todo_backups` when none is supplied, and returns that path; on I/O
failure it returns the failure signal `none`. -/
theorem create_backup_spec (home ts d : String) (tasks : List Task)
    (dir : Option String) :
    create_backup home ts d tasks dir true =
      some (backupDirResolved home dir ++ "/" ++ ("todo_backup_" ++ ts ++ ".json"),
        export_to_json tasks d)
  ∧ create_backup home ts d tasks dir false = none
  ∧ backupDirResolved home none = home ++ "/.todo_backups" :=
  ⟨rfl, rfl, rfl⟩

/-- Reading the canonical triple back out of a collection task's record
recovers the task's own fields. -/
theorem recTriple_taskToValue (t : Task) :
    recTriple (taskToValue t) = some (t.task, t.priority, t.completed) := by
  cases hp : t.priority <;>
    simp [taskToValue, recTriple, List.lookup, hp]

/-- C2: decoding the record-encoded non-empty collection returns exactly
the encoded task records, so the multiset of
(description, priority, completed) triples is preserved. -/
theorem json_roundtrip_triples (ts : List Task) (d : String) (h : ts ≠ []) :
    import_from_json (export_to_json ts d) = some (.pyList (ts.map taskToValue))
  ∧ Multiset.ofList ((ts.map taskToValue).map recTriple)
      = Multiset.ofList (ts.map fun t => some (t.task, t.priority, t.completed)) := by
  refine ⟨rfl, ?_⟩
  congr 1
  rw [List.map_map]
  exact List.map_congr_left fun t _ => recTriple_taskToValue t

/-- Witness for C2 at a concrete one-task collection. -/
theorem json_roundtrip_triples_witness :
    import_from_json (export_to_json [sampleTaskA] "D") =
      some (.pyList ([sampleTaskA].map taskToValue))
  ∧ Multiset.ofList (([sampleTaskA].map taskToValue).map recTriple)
      = Multiset.ofList ([sampleTaskA].map fun t =>
          some (t.task, t.priority, t.completed)) :=
  json_roundtrip_triples [sampleTaskA] "D" (by decide)

/-- Every checklist item line the encoder emits starts with `- [`. -/
theorem isItemLine_mdItemLine (isoOk : String → Bool) (fmtDate : String → String)
    (t : Task) : isItemLine (mdItemLine isoOk fmtDate t) = true := by
  obtain ⟨i, desc, pr, comp, ca⟩ := t
  cases comp <;>
    simp [mdItemLine, isItemLine, String.data_append, List.isPrefixOf]

/-- A bucket header line is not a checklist item line. -/
theorem not_item_header (x y : String) : isItemLine ("## " ++ x ++ y) = false := by
  simp [isItemLine, String.data_append, List.isPrefixOf]

/-- The item-line count of one priority bucket is the number of tasks
whose priority is exactly that bucket's. -/
theorem countP_mdSection (isoOk : String → Bool) (fmtDate : String → String)
    (ts : List Task) (p : String) :
    List.countP isItemLine (mdSection isoOk fmtDate ts p)
      = (ts.filter fun t => decide (t.priority = some p)).length := by
  by_cases h : ts.filter (fun t => decide (t.priority = some p)) = []
  · simp [mdSection, h]
  · rw [show mdSection isoOk fmtDate ts p =
        ("## " ++ pyCapitalize p ++ " Priority\n\n") ::
          ((ts.filter fun t => decide (t.priority = some p)).map
              (mdItemLine isoOk fmtDate) ++ ["\n"]) from by
      simp only [mdSection]
      rw [if_neg h]]
    rw [List.countP_cons_of_neg _ _ (by simp [not_item_header])]
    rw [List.countP_append, List.countP_map]
    have hall : List.countP (isItemLine ∘ mdItemLine isoOk fmtDate)
        (ts.filter fun t => decide (t.priority = some p))
        = (ts.filter fun t => decide (t.priority = some p)).length := by
      rw [List.countP_eq_length]
      exact fun a _ => isItemLine_mdItemLine isoOk fmtDate a
    rw [hall]
    simp [isItemLine, List.isPrefixOf]

/-- The three exact-priority filters partition the valid-priority filter. -/
theorem filter_priority_three (ts : List Task) :
    (ts.filter fun t => decide (t.priority = some "high")).length +
      (ts.filter fun t => decide (t.priority = some "medium")).length +
      (ts.filter fun t => decide (t.priority = some "low")).length
    = (ts.filter fun t => decide (t.priority = some "high") ||
        decide (t.priority = some "medium") ||
        decide (t.priority = some "low")).length := by
  induction ts with
  | nil => rfl
  | cons t ts ih =>
    by_cases h1 : t.priority = some "high"
    · have h2 : ¬t.priority = some "medium" := by rw [h1]; simp
      have h3 : ¬t.priority = some "low" := by rw [h1]; simp
      simp only [List.filter_cons]
      simp [h1, h2, h3]
      omega
    · by_cases h2 : t.priority = some "medium"
      · have h3 : ¬t.priority = some "low" := by rw [h2]; simp
        simp only [List.filter_cons]
        simp [h1, h2, h3]
        omega
      · by_cases h3 : t.priority = some "low"
        · simp only [List.filter_cons]
          simp [h1, h2, h3]
          omega
        · simp only [List.filter_cons]
          simp [h1, h2, h3, ih]

/-- C8: the checklist encoder emits exactly one item line per task whose
priority is exactly `high`, `medium` or `low`; a concrete task with
priority `urgent` is silently omitted, so the output can render fewer
tasks than the collection holds. -/
theorem export_markdown_emits_valid_priorities_only :
    (∀ (isoOk : String → Bool) (fmtDate : String → String) (now : String)
        (ts : List Task),
      List.countP isItemLine (export_to_markdown isoOk fmtDate now ts)
        = (ts.filter fun t => decide (t.priority = some "high") ||
            decide (t.priority = some "medium") ||
            decide (t.priority = some "low")).length)
  ∧ List.countP isItemLine
      (export_to_markdown (fun _ => true) (fun s => s) "E"
        [⟨1, "fix", some "urgent", false, "c"⟩]) = 0
  ∧ ([(⟨1, "fix", some "urgent", false, "c"⟩ : Task)]).length = 1 := by
  refine ⟨?_, by decide, rfl⟩
  intro isoOk fmtDate now ts
  unfold export_to_markdown
  rw [List.countP_append]
  have hhead : List.countP isItemLine
      ["# Todo List\n\n", "*Exported: " ++ now ++ "*\n\n"] = 0 := by
    rw [show ("*Exported: " ++ now ++ "*\n\n") = ("*Exported: " ++ (now ++ "*\n\n")) by
      rw [String.append_assoc]]
    simp [List.countP_cons, isItemLine, String.data_append, List.isPrefixOf]
  rw [hhead]
  simp only [List.flatMap_cons, List.flatMap_nil, List.append_nil, List.countP_append]
  rw [countP_mdSection, countP_mdSection, countP_mdSection,
    ← filter_priority_three]
  omega

/-- Claim C4's selection rule, from the claim's words: an incoming record
is kept iff its lower-cased description is not among `seen` (the
lower-cased descriptions of existing plus already-kept incoming records),
preserving incoming order. -/
def skipDupSel : List Task → List String → List Task
  | [], _ => []
  | t :: ts, seen =>
    if pyLowerS t.task ∈ seen then skipDupSel ts seen
    else t :: skipDupSel ts (pyLowerS t.task :: seen)

/-- Number of unordered equal pairs in a list of descriptions. -/
def dupPairs : List String → Nat
  | [] => 0
  | a :: l => l.count a + dupPairs l

/-- The code's `skip_duplicates` loop appends exactly the records the
claim's selection rule keeps. -/
theorem skipGo_eq_sel : ∀ (ts merged : List Task) (seen : List String),
    skipGo ts merged seen = merged ++ skipDupSel ts seen := by
  intro ts
  induction ts with
  | nil => intro merged seen; simp [skipGo, skipDupSel]
  | cons t ts ih =>
    intro merged seen
    by_cases h : pyLowerS t.task ∈ seen
    · simp [skipGo, skipDupSel, h, ih]
    · simp [skipGo, skipDupSel, h, ih]

/-- Descriptions of the kept incoming records are fresh with respect to
`seen` and pairwise distinct. -/
theorem skipDupSel_fresh_nodup : ∀ (ts : List Task) (seen : List String),
    (∀ d ∈ (skipDupSel ts seen).map (fun t => pyLowerS t.task), d ∉ seen)
  ∧ ((skipDupSel ts seen).map (fun t => pyLowerS t.task)).Nodup := by
  intro ts
  induction ts with
  | nil => intro seen; simp [skipDupSel]
  | cons t ts ih =>
    intro seen
    by_cases h : pyLowerS t.task ∈ seen
    · simpa [skipDupSel, h] using ih seen
    · have hfresh := (ih (pyLowerS t.task :: seen)).1
      constructor
      · intro d hd
        simp only [skipDupSel, if_neg h, List.map_cons, List.mem_cons] at hd
        rcases hd with rfl | hd
        · exact h
        · intro hseen
          exact hfresh d hd (List.mem_cons_of_mem _ hseen)
      · simp only [skipDupSel, if_neg h, List.map_cons]
        refine List.nodup_cons.mpr ⟨?_, (ih (pyLowerS t.task :: seen)).2⟩
        intro hmem
        exact hfresh _ hmem (List.mem_cons_self _ _)

/-- Duplicate pairs of a concatenation: pairs inside each part plus the
cross pairs. -/
theorem dupPairs_append (xs ys : List String) :
    dupPairs (xs ++ ys)
      = dupPairs xs + dupPairs ys + (xs.map fun x => ys.count x).sum := by
  induction xs with
  | nil => simp [dupPairs]
  | cons x xs ih =>
    rw [List.cons_append,
      show dupPairs (x :: (xs ++ ys)) = (xs ++ ys).count x + dupPairs (xs ++ ys)
        from rfl,
      List.count_append, ih,
      show dupPairs (x :: xs) = xs.count x + dupPairs xs from rfl,
      List.map_cons, List.sum_cons]
    omega

/-- A duplicate-free list has no duplicate pairs. -/
theorem dupPairs_eq_zero_of_nodup : ∀ {l : List String}, l.Nodup → dupPairs l = 0 := by
  intro l h
  induction l with
  | nil => rfl
  | cons a l ih =>
    obtain ⟨ha, hl⟩ := List.nodup_cons.mp h
    simp [dupPairs, List.count_eq_zero.mpr ha, ih hl]

/-- C4: the `skip_duplicates` merge is the existing collection followed by
exactly the incoming records whose lower-cased description is new with
respect to existing plus already-kept incoming, in incoming order; hence
the duplicate-description pair count never exceeds that of existing
alone. -/
theorem merge_skip_duplicates_spec (existing imported : List Task) :
    merge_tasks existing imported "skip_duplicates"
      = existing ++ skipDupSel imported (existing.map fun t => pyLowerS t.task)
  ∧ dupPairs ((merge_tasks existing imported "skip_duplicates").map
        fun t => pyLowerS t.task)
      ≤ dupPairs (existing.map fun t => pyLowerS t.task) := by
  have h1 : merge_tasks existing imported "skip_duplicates"
      = existing ++ skipDupSel imported (existing.map fun t => pyLowerS t.task) := by
    unfold merge_tasks
    rw [if_neg (by decide), if_pos rfl]
    exact skipGo_eq_sel imported existing _
  refine ⟨h1, ?_⟩
  rw [h1, List.map_append, dupPairs_append]
  have hfresh := (skipDupSel_fresh_nodup imported
    (existing.map fun t => pyLowerS t.task)).1
  have hnodup := (skipDupSel_fresh_nodup imported
    (existing.map fun t => pyLowerS t.task)).2
  have hys := dupPairs_eq_zero_of_nodup hnodup
  have hsum : ((existing.map fun t => pyLowerS t.task).map
      fun x => ((skipDupSel imported (existing.map fun t => pyLowerS t.task)).map
        fun t => pyLowerS t.task).count x).sum = 0 := by
    apply List.sum_eq_zero
    intro n hn
    simp only [List.mem_map] at hn
    obtain ⟨x, hx, rfl⟩ := hn
    rw [List.count_eq_zero]
    intro hxy
    exact hfresh x hxy (List.mem_map.mpr hx)
  omega

/-- Replacing a single-character pattern by the empty string filters that
character out. -/
theorem pyReplaceFuel_single (d : Char) : ∀ (n : Nat) (x : List Char),
    x.length ≤ n → pyReplaceFuel n x [d] [] = x.filter (fun c => c != d) := by
  intro n
  induction n with
  | zero =>
    intro x hx
    have : x = [] := List.eq_nil_of_length_eq_zero (Nat.le_zero.mp hx)
    subst this
    rfl
  | succ n ih =>
    intro x hx
    cases x with
    | nil => rfl
    | cons c cs =>
      by_cases h : d = c
      · subst h
        rw [show pyReplaceFuel (n + 1) (d :: cs) [d] [] = pyReplaceFuel n cs [d] []
            from by simp [pyReplaceFuel, List.isPrefixOf]]
        rw [ih cs (by simpa using Nat.succ_le_succ_iff.mp hx)]
        simp [List.filter_cons]
      · rw [show pyReplaceFuel (n + 1) (c :: cs) [d] []
              = c :: pyReplaceFuel n cs [d] [] from by
            simp [pyReplaceFuel, List.isPrefixOf, h]]
        rw [ih cs (by simpa using Nat.succ_le_succ_iff.mp hx)]
        simp [List.filter_cons, Ne.symm h]

/-- `s.replace(d, '')` for one character is a filter. -/
theorem pyReplace_single (d : Char) (x : List Char) :
    pyReplace x [d] [] = x.filter (fun c => c != d) :=
  pyReplaceFuel_single d x.length x le_rfl

/-- Emphasis stripping removes every underscore (the final
`.replace('_','')`). -/
theorem stripEmph_no_underscore (s : List Char) : '_' ∉ stripEmph s := by
  unfold stripEmph
  rw [pyReplace_single]
  intro h
  have := (List.mem_filter.mp h).2
  simp at this

/-- A two-character substring occurrence puts its second character in the
text. -/
theorem mem_of_containsSub_pair (a b : Char) : ∀ t : List Char,
    containsSub [a, b] t = true → b ∈ t := by
  intro t
  induction t with
  | nil => simp [containsSub, List.isEmpty]
  | cons c cs ih =>
    intro h
    simp only [containsSub, Bool.or_eq_true] at h
    rcases h with h | h
    · cases cs with
      | nil => simp [List.isPrefixOf] at h
      | cons c2 cs2 =>
        simp [List.isPrefixOf] at h
        rw [h.2]
        exact List.mem_cons_of_mem _ (List.mem_cons_self _ _)
    · exact List.mem_cons_of_mem _ (ih h)

/-- A pair whose second character is absent cannot occur as a substring. -/
theorem containsSub_false_of_not_mem {b : Char} {t : List Char} (a : Char)
    (h : b ∉ t) : containsSub [a, b] t = false := by
  cases hx : containsSub [a, b] t
  · rfl
  · exact absurd (mem_of_containsSub_pair a b t hx) h

/-- C5 counterexample: on the item `- [ ] A [b (c` the decoder keeps
`A [b` (it tries `' ('` before `' ['` regardless of position), while the
claim's earliest-occurrence rule yields `A`. -/
theorem checklist_truncation_counterexample :
    import_from_markdown "T" ["- [ ] A [b (c".data]
      = .ok (some [⟨1, "A [b".data, "medium", false, "T"⟩])
  ∧ claimTruncate (stripEmph (pyStrip (("- [ ] A [b (c".data).drop 6))) = "A".data
  ∧ "A [b".data ≠ "A".data :=
  ⟨by decide, by decide, by decide⟩

/-- C5 amended: after emphasis stripping the text contains no underscore,
so the `' _'` delimiter never fires; the decoder truncates at the first
occurrence of `' ('` whenever `' ('` occurs anywhere in the text,
otherwise at the first occurrence of `' ['` when that occurs, otherwise
leaves the text unchanged — delimiter-priority order, not
earliest-position order. -/
theorem checklist_truncation_order (s : List Char) :
    truncateDesc (stripEmph s) =
      (if containsSub [' ', '('] (stripEmph s) then
        pyStrip (takeBefore [' ', '('] (stripEmph s))
      else if containsSub [' ', '['] (stripEmph s) then
        pyStrip (takeBefore [' ', '['] (stripEmph s))
      else stripEmph s) := by
  have hu : '_' ∉ stripEmph s := stripEmph_no_underscore s
  by_cases h1 : containsSub [' ', '('] (stripEmph s) = true
  · have hg : (stripEmph s).contains '(' = true := by
      have := mem_of_containsSub_pair ' ' '(' (stripEmph s) h1
      simpa using this
    simp [truncateDesc, h1, hg]
    intro hc _
    exact absurd (by simpa using hg) hc
  · by_cases h2 : containsSub [' ', '['] (stripEmph s) = true
    · have hg : (stripEmph s).contains '[' = true := by
        have := mem_of_containsSub_pair ' ' '[' (stripEmph s) h2
        simpa using this
      simp [truncateDesc, h1, h2, hg]
      intro _ hc
      exact absurd (by simpa using hg) hc
    · have h3 : containsSub [' ', '_'] (stripEmph s) = false :=
        containsSub_false_of_not_mem ' ' hu
      by_cases hg : ((stripEmph s).contains '(' || (stripEmph s).contains '[') = true <;>
        simp [truncateDesc, h1, h2, h3, hg]

/-- A candidate that is not a dict is rejected with the dictionary
warning. -/
theorem validateStep_not_dict (isoOk : String → Bool) (now : String) (i : Nat)
    (v : Value) (h : ∀ kvs, v ≠ .pyDict kvs) :
    validateStep isoOk now i v =
      (none, ["Task " ++ toString i ++ ": Not a valid dictionary"]) := by
  cases v with
  | pyDict kvs => exact absurd rfl (h kvs)
  | pyNone => rfl
  | pyBool b => rfl
  | pyInt n => rfl
  | pyStr s => rfl
  | pyList xs => rfl

/-- A dict candidate whose `task` field is missing or falsy is rejected
with the description warning. -/
theorem validateStep_reject_desc (isoOk : String → Bool) (now : String)
    (i : Nat) (kvs : List (String × Value))
    (h : List.lookup "task" kvs = none ∨
      ∃ tv, List.lookup "task" kvs = some tv ∧ truthy tv = false) :
    validateStep isoOk now i (.pyDict kvs) =
      (none, ["Task " ++ toString i ++ ": Missing or empty 'task' field"]) := by
  rcases h with h | ⟨tv, hl, ht⟩
  · simp [validateStep, h]
  · simp [validateStep, hl, ht]

/-- A dict candidate with a truthy `task` field is kept, whatever its
priority, completed, id and created_at fields hold. -/
theorem validateStep_kept (isoOk : String → Bool) (now : String) (i : Nat)
    (kvs : List (String × Value)) (tv : Value)
    (hl : List.lookup "task" kvs = some tv) (ht : truthy tv = true) :
    ((validateStep isoOk now i (.pyDict kvs)).1).isSome = true := by
  simp only [validateStep, hl, ht]
  repeat' split
  all_goals simp_all

/-- The validator's rejection boundary: a candidate is dropped exactly
when it is not a dict, or its `task` field is missing or falsy. -/
theorem validateStep_none_iff (isoOk : String → Bool) (now : String) (i : Nat)
    (v : Value) :
    (validateStep isoOk now i v).1 = none ↔
      ((∀ kvs, v ≠ .pyDict kvs) ∨
       ∃ kvs, v = .pyDict kvs ∧
         (List.lookup "task" kvs = none ∨
          ∃ tv, List.lookup "task" kvs = some tv ∧ truthy tv = false)) := by
  constructor
  · intro h
    cases v with
    | pyDict kvs =>
      right
      refine ⟨kvs, rfl, ?_⟩
      cases hl : List.lookup "task" kvs with
      | none => exact Or.inl rfl
      | some tv =>
        cases ht : truthy tv
        · exact Or.inr ⟨tv, rfl, ht⟩
        · have hk := validateStep_kept isoOk now i kvs tv hl ht
          rw [h] at hk
          simp at hk
    | pyNone => exact Or.inl fun kvs hk => Value.noConfusion hk
    | pyBool b => exact Or.inl fun kvs hk => Value.noConfusion hk
    | pyInt n => exact Or.inl fun kvs hk => Value.noConfusion hk
    | pyStr s => exact Or.inl fun kvs hk => Value.noConfusion hk
    | pyList xs => exact Or.inl fun kvs hk => Value.noConfusion hk
  · intro h
    rcases h with h | ⟨kvs, rfl, hh⟩
    · rw [validateStep_not_dict isoOk now i v h]
    · rw [validateStep_reject_desc isoOk now i kvs hh]

/-- The validator loop is the per-record step, aggregated: kept records
collected in order, warnings concatenated in order. -/
theorem validateGo_eq (isoOk : String → Bool) (now : String) :
    ∀ (ts : List Value) (i : Nat),
      validateGo isoOk now i ts =
        ((enumFrom i ts).filterMap fun p => (validateStep isoOk now p.1 p.2).1,
         (enumFrom i ts).flatMap fun p => (validateStep isoOk now p.1 p.2).2) := by
  intro ts
  induction ts with
  | nil => intro i; rfl
  | cons v vs ih =>
    intro i
    rcases h : validateStep isoOk now i v with ⟨r, w⟩
    simp only [validateGo, h, enumFrom, List.filterMap_cons, List.flatMap_cons,
      ih (i + 1)]
    cases r <;> simp

/-- C3: the validator returns kept records and accumulated warnings as a
pair (never raising); a candidate is rejected exactly when it is not
record-shaped (warning `Not a valid dictionary`) or its description is
missing or falsy — for a string description, falsy means empty —
(warning `Missing or empty 'task' field`); every dict candidate with a
truthy description is repaired and kept regardless of its priority,
completed, id and created_at fields. -/
theorem validator_rules :
    (∀ (isoOk : String → Bool) (now : String) (ts : List Value),
       validate_imported_tasks isoOk now ts =
         ((enumFrom 1 ts).filterMap fun p => (validateStep isoOk now p.1 p.2).1,
          (enumFrom 1 ts).flatMap fun p => (validateStep isoOk now p.1 p.2).2))
  ∧ (∀ (isoOk : String → Bool) (now : String) (i : Nat) (v : Value),
       (∀ kvs, v ≠ .pyDict kvs) →
       validateStep isoOk now i v =
         (none, ["Task " ++ toString i ++ ": Not a valid dictionary"]))
  ∧ (∀ (isoOk : String → Bool) (now : String) (i : Nat)
        (kvs : List (String × Value)),
       (List.lookup "task" kvs = none ∨
        ∃ tv, List.lookup "task" kvs = some tv ∧ truthy tv = false) →
       validateStep isoOk now i (.pyDict kvs) =
         (none, ["Task " ++ toString i ++ ": Missing or empty 'task' field"]))
  ∧ (∀ (isoOk : String → Bool) (now : String) (i : Nat)
        (kvs : List (String × Value)) (tv : Value),
       List.lookup "task" kvs = some tv → truthy tv = true →
       ∃ t', (validateStep isoOk now i (.pyDict kvs)).1 = some t')
  ∧ (∀ (isoOk : String → Bool) (now : String) (i : Nat) (v : Value),
       (validateStep isoOk now i v).1 = none ↔
         ((∀ kvs, v ≠ .pyDict kvs) ∨
          ∃ kvs, v = .pyDict kvs ∧
            (List.lookup "task" kvs = none ∨
             ∃ tv, List.lookup "task" kvs = some tv ∧ truthy tv = false)))
  ∧ (∀ s : String, truthy (.pyStr s) = true ↔ s ≠ "") :=
  ⟨fun isoOk now ts => validateGo_eq isoOk now ts 1,
   validateStep_not_dict,
   validateStep_reject_desc,
   fun isoOk now i kvs tv hl ht =>
     Option.isSome_iff_exists.mp (validateStep_kept isoOk now i kvs tv hl ht),
   validateStep_none_iff,
   fun s => by simp [truthy]⟩

/-- Witness for C3: a concrete empty-description candidate is rejected
with the description warning, and a concrete candidate whose only defect
is the priority `urgent` is kept. -/
theorem validator_rules_witness :
    validateStep (fun _ => true) "NOW" 2 (.pyDict [("task", .pyStr "")])
      = (none, ["Task " ++ toString 2 ++ ": Missing or empty 'task' field"])
  ∧ ∃ t', (validateStep (fun _ => true) "NOW" 1
      (.pyDict [("task", .pyStr "ok"), ("priority", .pyStr "urgent")])).1 = some t' :=
  ⟨validator_rules.2.2.1 (fun _ => true) "NOW" 2 [("task", .pyStr "")]
      (Or.inr ⟨.pyStr "", rfl, rfl⟩),
   validator_rules.2.2.2.1 (fun _ => true) "NOW" 1
      [("task", .pyStr "ok"), ("priority", .pyStr "urgent")] (.pyStr "ok") rfl rfl⟩

end TaskEngine
